import Mathlib

/-!
ObjectsFilterWidget.

A shallow embedding of `libpgmodeler_ui/src/objectsfilterwidget.cpp`: the widget that
keeps a table of object filters (type selector, pattern, match mode, remove button) and
serialises the rows into filter strings.

The widget is modelled as a record of the toolkit objects it owns; each member function
becomes a pure function on that record.  Objects living on the heap are identified by
their address.  Members of `Catalog` and `BaseObject` that are declared elsewhere are
taken as parameters (`Env`); properties of the table view that are set in the `.ui` form
are taken as parameters too (`ViewBehaviour`).

What is left out: icons, tool tips and the signal connections made by the constructor (a
slot is modelled together with the `sender()` it observes), and the text an open cell
editor holds before it is committed (an item's text is the text stored in the item).
-/

namespace PgModeler

/-! ## Toolkit objects -/

/-- An `ObjectType` enumerator, carried as the unsigned value `enum_cast` stores in the combo. -/
abbrev ObjectType := Nat

/-- Address of a heap-allocated object; pointer comparison is comparison of addresses. -/
abbrev Addr := Nat

/-- A table cell index `(row, column)`. -/
abbrev Cell := Nat × Nat

/-- What `sender()` can return: an object, known by its address and by whether it is a
`QToolButton` (the only thing `qobject_cast<QToolButton *>` looks at). -/
structure QObject where
  addr : Addr
  isToolButton : Bool
  deriving DecidableEq, Repr

/-- The cast `qobject_cast<QToolButton *>(sender())`: null for a null sender and for a sender of
another class, the same pointer otherwise. -/
def qobject_cast_QToolButton (sender : Option QObject) : Option Addr :=
  match sender with
  | none => none
  | some o => if o.isToolButton then some o.addr else none

/-- One entry of a combo box: its text and its user data (a `QVariant`, invalid when `none`). -/
structure ComboItem where
  text : String
  userData : Option Nat
  deriving DecidableEq, Repr

/-- A `QComboBox`: its entries, the current index (`-1` when there is none) and its style sheet. -/
structure QComboBox where
  items : List ComboItem
  currentIndex : Int
  styleSheet : String
  deriving DecidableEq, Repr

/-- A freshly constructed combo box. -/
def QComboBox.new : QComboBox :=
  { items := [], currentIndex := -1, styleSheet := "" }

/-- The call `QComboBox::addItem(icon, text, userData)`: appends an entry (the icon is decoration
and is not modelled); a combo that was empty and had no current index moves to index 0. -/
def QComboBox.addItem (c : QComboBox) (text : String) (userData : Option Nat) : QComboBox :=
  { c with
    items := c.items ++ [{ text := text, userData := userData }]
    currentIndex := if c.items.isEmpty && decide (c.currentIndex < 0) then 0 else c.currentIndex }

/-- The call `QComboBox::addItems(texts)`: one `addItem` per text, with no user data. -/
def QComboBox.addItems (c : QComboBox) (texts : List String) : QComboBox :=
  texts.foldl (fun acc t => acc.addItem t none) c

/-- The call `QComboBox::setStyleSheet`. -/
def QComboBox.setStyleSheet (c : QComboBox) (sheet : String) : QComboBox :=
  { c with styleSheet := sheet }

/-- Insertion of an entry behind every entry whose text is not greater (keeps equal texts in
their previous order). -/
def insertByText (x : ComboItem) : List ComboItem → List ComboItem
  | [] => [x]
  | y :: ys => if x.text < y.text then x :: y :: ys else y :: insertByText x ys

/-- The call `combo->model()->sort(0)`: a stable ascending sort of the entries by text.  The current
index is a persistent index, so it follows its entry to the entry's new position. -/
def QComboBox.sort (c : QComboBox) : QComboBox :=
  let sorted := c.items.foldl (fun acc x => insertByText x acc) []
  let idx : Int :=
    if c.currentIndex < 0 then c.currentIndex
    else
      match c.items[c.currentIndex.toNat]? with
      | none => -1
      | some cur =>
        (((c.items.filter (fun x => decide (x.text < cur.text))).length
          + ((c.items.take c.currentIndex.toNat).filter (fun x => x.text == cur.text)).length : Nat) : Int)
  { c with items := sorted, currentIndex := idx }

/-- The call `QComboBox::currentData()`: the user data of the current entry, invalid when there is
no current entry. -/
def QComboBox.currentData (c : QComboBox) : Option Nat :=
  if c.currentIndex < 0 then none
  else c.items[c.currentIndex.toNat]?.bind (fun it => it.userData)

/-- The conversion `QVariant::toUInt()`: an invalid variant converts to 0. -/
def toUInt (v : Option Nat) : Nat := v.getD 0

/-- The value `QEvent::KeyPress`. -/
def KeyPress : Nat := 6

/-- The value `Qt::Key_Delete`. -/
def Key_Delete : Nat := 0x01000007

/-- An event: its type and, for key events, the key. -/
structure QEvent where
  type : Nat
  key : Nat
  deriving DecidableEq, Repr

/-- The flag `Qt::ItemIsSelectable`. -/
def ItemIsSelectable : Nat := 1
/-- The flag `Qt::ItemIsEditable`. -/
def ItemIsEditable : Nat := 2
/-- The flag `Qt::ItemIsEnabled`. -/
def ItemIsEnabled : Nat := 32

/-- A `QTableWidgetItem` together with what the view knows about it: its text, its flags, and
whether `isPersistentEditorOpen` answers true for it. -/
structure QTableWidgetItem where
  text : String
  flags : Nat
  persistentEditorOpen : Bool
  deriving DecidableEq, Repr

/-- One row of `filters_tbw`.  Rows are only ever created by `addFilter`, which fills all four
columns: the object-type combo (column 0), the pattern item (column 1), the mode combo (column 2)
and the remove button (column 3, known by its address). -/
structure Row where
  object_cmb : QComboBox
  item : QTableWidgetItem
  mode_cmb : QComboBox
  rem_tb : Addr
  deriving DecidableEq, Repr

/-- The table `filters_tbw`: its own address, its rows, the current index (`none` when invalid) and
the selected cells. -/
structure QTableWidget where
  addr : Addr
  rows : List Row
  current : Option Cell
  selection : List Cell
  deriving DecidableEq, Repr

/-- A `QToolButton` owned by the form; only its enabled state matters here. -/
structure QToolButton where
  enabled : Bool
  deriving DecidableEq, Repr

/-- The widget: the filters table, the clear-all button, the ignore-non-matches check box and the
next address the allocator hands out. -/
structure ObjectsFilterWidget where
  filters_tbw : QTableWidget
  clear_all_tb : QToolButton
  ignore_non_matches_chk : Bool
  heap : Addr
  deriving DecidableEq, Repr

/-! ## Collaborators declared outside this file -/

/-- Members of `Catalog` and `BaseObject`, and the translation function `tr`, none of which is
defined in this file; they are parameters of the model. -/
structure Env where
  getFilterableObjectTypes : List ObjectType
  getTypeName : ObjectType → String
  getSchemaName : ObjectType → String
  FilterExact : String
  FilterLike : String
  FilterRegExp : String
  tr : String → String

/-- Modelled from the spec: `Catalog::FilterSeparator`, defined in the catalog component; the
spec describes the produced list as colon-separated filter strings. -/
def FilterSeparator : String := ":"

/-- How the view reacts where the reaction depends on the selection mode and selection behaviour
configured for `filters_tbw` in the `.ui` form: the selection after `setCurrentIndex`, and the
current index and selection after a row is removed (given the row count, current index and
selection before, and the removed row). -/
structure ViewBehaviour where
  currentChanged : List Cell → Option Cell → List Cell
  rowRemoved : Nat → Option Cell → List Cell → Nat → Option Cell × List Cell

/-- A view in extended-selection mode selecting single items: making an index current selects just
that index; removing the current row moves the current index to the row above, else to the row
below, else nowhere; selected cells of the removed row vanish and the ones below move up. -/
def itemView : ViewBehaviour where
  currentChanged := fun _ idx =>
    match idx with
    | none => []
    | some c => [c]
  rowRemoved := fun n cur sel r =>
    let cur' : Option Cell :=
      match cur with
      | none => none
      | some (cr, cc) =>
        if cr < r then some (cr, cc)
        else if r < cr then some (cr - 1, cc)
        else if 0 < r then some (r - 1, cc)
        else if r + 1 < n then some (0, cc)
        else none
    let sel' := (sel.filter (fun c => c.1 != r)).map (fun c => if r < c.1 then (c.1 - 1, c.2) else c)
    (cur', sel')

/-! ## The table widget -/

/-- Number of columns of `filters_tbw`: the four columns `addFilter` fills. -/
def columnCount : Nat := 4

/-- The call `QTableWidget::rowCount()`. -/
def QTableWidget.rowCount (t : QTableWidget) : Int := t.rows.length

/-- The call `QTableWidget::currentRow()`: `-1` when the current index is invalid. -/
def QTableWidget.currentRow (t : QTableWidget) : Int :=
  match t.current with
  | none => -1
  | some (r, _) => r

/-- The call `QTableWidget::currentItem()`: the item at the current index; only column 1 holds
items (the other columns hold cell widgets), so the result is null elsewhere. -/
def QTableWidget.currentItem (t : QTableWidget) : Option QTableWidgetItem :=
  match t.current with
  | none => none
  | some (r, c) => if c = 1 then t.rows[r]?.map (fun row => row.item) else none

/-- The call `QTableWidget::isPersistentEditorOpen(item)`. -/
def QTableWidget.isPersistentEditorOpen (_t : QTableWidget) (item : QTableWidgetItem) : Bool :=
  item.persistentEditorOpen

/-- The call `QAbstractItemView::setCurrentIndex(index)`. -/
def QTableWidget.setCurrentIndex (vb : ViewBehaviour) (t : QTableWidget) (index : Option Cell) :
    QTableWidget :=
  { t with current := index, selection := vb.currentChanged t.selection index }

/-- The call `QTableWidget::setCurrentCell(row, column)`: makes the model index of that cell
current; the index is invalid when the cell lies outside the table. -/
def QTableWidget.setCurrentCell (vb : ViewBehaviour) (t : QTableWidget) (row column : Nat) :
    QTableWidget :=
  t.setCurrentIndex vb (if row < t.rows.length ∧ column < columnCount then some (row, column) else none)

/-- Insertion of `x` before position `k` of a list (at the end when `k` is the length). -/
def insertAt {α : Type} (x : α) : Nat → List α → List α
  | 0, l => x :: l
  | _ + 1, [] => [x]
  | k + 1, y :: ys => y :: insertAt x k ys

/-- The call `QTableWidget::insertRow(row)` followed by the `setCellWidget` / `setItem` calls that
fill the new row: nothing happens unless `0 ≤ row ≤ rowCount()`. -/
def QTableWidget.insertRow (t : QTableWidget) (row : Int) (cells : Row) : QTableWidget :=
  if 0 ≤ row ∧ row ≤ t.rowCount then { t with rows := insertAt cells row.toNat t.rows } else t

/-- The call `QTableWidget::removeRow(row)`: nothing happens unless `0 ≤ row < rowCount()`;
otherwise that row goes away and the view updates current index and selection. -/
def QTableWidget.removeRow (vb : ViewBehaviour) (t : QTableWidget) (row : Int) : QTableWidget :=
  if 0 ≤ row ∧ row < t.rowCount then
    let upd := vb.rowRemoved t.rows.length t.current t.selection row.toNat
    { t with rows := t.rows.eraseIdx row.toNat, current := upd.1, selection := upd.2 }
  else t

/-- The call `QAbstractItemView::clearSelection()`. -/
def QTableWidget.clearSelection (t : QTableWidget) : QTableWidget :=
  { t with selection := [] }

/-! ## Strings -/

/-- The call `QStringList::join(sep)`. -/
def join (sep : String) : List String → String
  | [] => ""
  | [x] => x
  | x :: y :: rest => x ++ sep ++ join sep (y :: rest)

/-- Scan of `QString::split`: `cur` holds the field being collected (reversed), `skip` the number
of characters still to drop because they belong to a separator that was just matched. -/
def splitAux (sep : List Char) : List Char → List Char → Nat → List (List Char)
  | [], cur, _ => [cur.reverse]
  | _ :: rest, cur, skip + 1 => splitAux sep rest cur skip
  | c :: rest, cur, 0 =>
    if sep.isPrefixOf (c :: rest) then cur.reverse :: splitAux sep rest [] (sep.length - 1)
    else splitAux sep rest (c :: cur) 0

/-- The call `QString::split(sep)` (empty parts kept, case sensitive): the fields between the
non-overlapping occurrences of `sep` found from left to right.  An empty separator yields an empty
string, each character, and another empty string. -/
def split (s sep : String) : List String :=
  if sep.data.isEmpty then "" :: (s.data.map (fun c => String.mk [c])) ++ [""]
  else (splitAux sep.data s.data [] 0).map String.mk

/-- Whether `sep` occurs in the character list. -/
def containsAux (sep : List Char) : List Char → Bool
  | [] => sep.isPrefixOf []
  | c :: rest => sep.isPrefixOf (c :: rest) || containsAux sep rest

/-- The call `QString::contains(sep)`. -/
def contains (s sep : String) : Bool := containsAux sep.data s.data

/-! ## The widget's member functions -/

namespace ObjectsFilterWidget

/-- The function `ObjectsFilterWidget::createObjectsCombo`: one entry per filterable object type,
showing the type name and carrying the enumerator as user data, sorted by name. -/
def createObjectsCombo (env : Env) : QComboBox :=
  let combo := QComboBox.new
  let obj_types := env.getFilterableObjectTypes
  let combo := obj_types.foldl
    (fun c obj_type => c.addItem (env.getTypeName obj_type) (some obj_type)) combo
  let combo := combo.setStyleSheet "border: 0px"
  combo.sort

/-- The local list `modes` of `getFilterString`. -/
def modes (env : Env) : List String := [env.FilterExact, env.FilterLike, env.FilterRegExp]

/-- The subscript `modes[index]`: defined only for an index inside the list. -/
def modeAt (env : Env) (index : Int) : Option String :=
  if index < 0 then none else (modes env)[index.toNat]?

/-- The filter string of one row, as built in the body of the loop of `getFilterString`: the
schema name of the selected type, the pattern and the mode token, joined by the separator. -/
def rowFilter (env : Env) (r : Row) : Option String :=
  let obj_type : ObjectType := toUInt r.object_cmb.currentData
  match modeAt env r.mode_cmb.currentIndex with
  | none => none
  | some mode =>
    let curr_filter := [env.getSchemaName obj_type, r.item.text, mode]
    some (join FilterSeparator curr_filter)

/-- The loop of `getFilterString` over the rows still to visit, `filters` being the list built so
far. -/
def filterLoop (env : Env) : List Row → List String → Option (List String)
  | [], filters => some filters
  | r :: rest, filters =>
    match rowFilter env r with
    | none => none
    | some f => filterLoop env rest (filters ++ [f])

/-- The function `ObjectsFilterWidget::getFilterString`: resets the current index of the table, then
serialises every row.  The result is `none` when some mode combo has an index outside `modes`.
The vectors of child types and `sel_types` feed only the block that is commented out, so nothing
is appended after the loop. -/
def getFilterString (env : Env) (vb : ViewBehaviour) (w : ObjectsFilterWidget) :
    Option (List String) × ObjectsFilterWidget :=
  let tbw := w.filters_tbw.setCurrentIndex vb none
  (filterLoop env tbw.rows [], { w with filters_tbw := tbw })

/-- The function `ObjectsFilterWidget::isIgnoreNonMatches`. -/
def isIgnoreNonMatches (w : ObjectsFilterWidget) : Bool := w.ignore_non_matches_chk

/-- The function `ObjectsFilterWidget::addFilter`: inserts a row at index `rowCount()`, made of a
fresh object combo, an empty editable item, a mode combo with three entries and a newly allocated
remove button, and enables the clear-all button.  The row is assembled first and inserted with
all four cells at once. -/
def addFilter (env : Env) (w : ObjectsFilterWidget) : ObjectsFilterWidget :=
  let row := w.filters_tbw.rowCount
  let item : QTableWidgetItem :=
    { text := "", flags := ItemIsEditable ||| ItemIsEnabled ||| ItemIsSelectable,
      persistentEditorOpen := false }
  let combo := ((QComboBox.new).setStyleSheet "border: 0px").addItems
    [env.tr "Exact", env.tr "Like", env.tr "Regexp"]
  let rem_tb : Addr := w.heap
  let cells : Row :=
    { object_cmb := createObjectsCombo env, item := item, mode_cmb := combo, rem_tb := rem_tb }
  { w with
    filters_tbw := w.filters_tbw.insertRow row cells
    clear_all_tb := { enabled := true }
    heap := w.heap + 1 }

/-- The search loop of `removeFilter`: the first row, counted from `row`, whose column-3 widget
is `btn`. -/
def findButtonRow (btn : Addr) : List Row → Nat → Option Nat
  | [], _ => none
  | r :: rest, row => if r.rem_tb = btn then some row else findButtonRow btn rest (row + 1)

/-- The function `ObjectsFilterWidget::removeFilter`, `sender` being what `sender()` returns. -/
def removeFilter (vb : ViewBehaviour) (sender : Option QObject) (w : ObjectsFilterWidget) :
    ObjectsFilterWidget :=
  let btn := qobject_cast_QToolButton sender
  let curr_row := w.filters_tbw.currentRow
  if btn.isNone ∧ curr_row < 0 then w
  else
    let curr_row : Int :=
      match btn with
      | none => curr_row
      | some b =>
        match findButtonRow b w.filters_tbw.rows 0 with
        | some row => row
        | none => curr_row
    let tbw := (w.filters_tbw.removeRow vb curr_row).clearSelection
    { w with filters_tbw := tbw, clear_all_tb := { enabled := decide (tbw.rowCount ≠ 0) } }

/-- The loop of `removeAllFilters`, allowed to run at most `fuel` iterations; `none` when the
table is still not empty after that many. -/
def removeAllLoop (vb : ViewBehaviour) (sender : Option QObject) :
    Nat → ObjectsFilterWidget → Option ObjectsFilterWidget
  | 0, w => if w.filters_tbw.rowCount ≠ 0 then none else some w
  | fuel + 1, w =>
    if w.filters_tbw.rowCount ≠ 0 then
      removeAllLoop vb sender fuel
        (removeFilter vb sender { w with filters_tbw := w.filters_tbw.setCurrentCell vb 0 0 })
    else some w

/-- The function `ObjectsFilterWidget::removeAllFilters`; the nested `removeFilter` calls see the
same `sender()` as the slot itself. -/
def removeAllFilters (vb : ViewBehaviour) (sender : Option QObject) (fuel : Nat)
    (w : ObjectsFilterWidget) : Option ObjectsFilterWidget :=
  (removeAllLoop vb sender fuel w).map (fun w' => { w' with clear_all_tb := { enabled := false } })

/-- The base implementation `QWidget::eventFilter`, which never filters an event out. -/
def QWidget_eventFilter (_object : QObject) (_event : QEvent) : Bool := false

/-- The function `ObjectsFilterWidget::eventFilter`: the returned flag and the widget afterwards;
`sender` is what `sender()` returns while the filter runs. -/
def eventFilter (vb : ViewBehaviour) (sender : Option QObject) (object : QObject) (event : QEvent)
    (w : ObjectsFilterWidget) : Bool × ObjectsFilterWidget :=
  if decide (event.type = KeyPress) && decide (event.key = Key_Delete) &&
      decide (object.addr = w.filters_tbw.addr) &&
      (match w.filters_tbw.currentItem with
        | none => false
        | some item => !w.filters_tbw.isPersistentEditorOpen item) then
    (false, removeFilter vb sender w)
  else (QWidget_eventFilter object event, w)

end ObjectsFilterWidget

/-! ## Properties of widget states -/

namespace ObjectsFilterWidget

/-- The clear-all button is enabled exactly when the table has at least one row. -/
def ClearAllConsistent (w : ObjectsFilterWidget) : Prop :=
  w.clear_all_tb.enabled = true ↔ w.filters_tbw.rows ≠ []

/-- The remove buttons of different rows are different objects, all allocated before the next
address the allocator hands out. -/
def DistinctButtons (w : ObjectsFilterWidget) : Prop :=
  (w.filters_tbw.rows.map (fun r => r.rem_tb)).Nodup ∧ ∀ r ∈ w.filters_tbw.rows, r.rem_tb < w.heap

/-- The widget states that can arise: a widget with an empty table, followed by any sequence of
member-function calls and of user interaction with the cells, the current index or the selection
(which leaves the buttons of the rows and the allocator alone). -/
inductive Reachable (env : Env) (vb : ViewBehaviour) : ObjectsFilterWidget → Prop
  | start (w : ObjectsFilterWidget) : w.filters_tbw.rows = [] → Reachable env vb w
  | interact (w w' : ObjectsFilterWidget) : Reachable env vb w →
      w'.filters_tbw.rows.map (fun r => r.rem_tb) = w.filters_tbw.rows.map (fun r => r.rem_tb) →
      w'.heap = w.heap → Reachable env vb w'
  | add (w : ObjectsFilterWidget) : Reachable env vb w → Reachable env vb (addFilter env w)
  | remove (sender : Option QObject) (w : ObjectsFilterWidget) : Reachable env vb w →
      Reachable env vb (removeFilter vb sender w)
  | removeAll (sender : Option QObject) (fuel : Nat) (w w' : ObjectsFilterWidget) :
      Reachable env vb w → removeAllFilters vb sender fuel w = some w' → Reachable env vb w'
  | filterString (w : ObjectsFilterWidget) : Reachable env vb w →
      Reachable env vb (getFilterString env vb w).2
  | event (sender : Option QObject) (object : QObject) (ev : QEvent) (w : ObjectsFilterWidget) :
      Reachable env vb w → Reachable env vb (eventFilter vb sender object ev w).2

instance (w : ObjectsFilterWidget) : Decidable (ClearAllConsistent w) := by
  unfold ClearAllConsistent
  infer_instance

instance (w : ObjectsFilterWidget) : Decidable (DistinctButtons w) := by
  unfold DistinctButtons
  infer_instance

end ObjectsFilterWidget

/-! ## Sample data -/

/-- A sample environment with three filterable types. -/
def sampleEnv : Env where
  getFilterableObjectTypes := [3, 1, 2]
  getTypeName := fun t => if t = 1 then "Table" else if t = 2 then "View" else "Schema"
  getSchemaName := fun t => if t = 1 then "table" else if t = 2 then "view" else "schema"
  FilterExact := "exact"
  FilterLike := "like"
  FilterRegExp := "regexp"
  tr := fun s => s

/-- A sample row: type combo on its single entry (type 1), the given pattern, mode index and
remove button. -/
def sampleRow (pattern : String) (mode : Int) (btn : Addr) : Row where
  object_cmb := { items := [{ text := "Table", userData := some 1 }], currentIndex := 0,
                  styleSheet := "border: 0px" }
  item := { text := pattern, flags := 35, persistentEditorOpen := false }
  mode_cmb := { items := [{ text := "Exact", userData := none }, { text := "Like", userData := none },
                          { text := "Regexp", userData := none }],
                currentIndex := mode, styleSheet := "border: 0px" }
  rem_tb := btn

/-- A sample widget with three rows, the pattern cell of the middle row being current. -/
def sampleWidget : ObjectsFilterWidget where
  filters_tbw :=
    { addr := 1
      rows := [sampleRow "a" 0 10, sampleRow "b%" 1 11, sampleRow "^c" 2 12]
      current := some (1, 1)
      selection := [(1, 1)] }
  clear_all_tb := { enabled := true }
  ignore_non_matches_chk := false
  heap := 13

/-- The sample widget with no current index. -/
def sampleWidgetNoCurrent : ObjectsFilterWidget :=
  { sampleWidget with
    filters_tbw := { sampleWidget.filters_tbw with current := none, selection := [] } }

/-- A widget with a single row whose pattern contains the separator. -/
def sampleWidgetColon : ObjectsFilterWidget :=
  { sampleWidget with
    filters_tbw := { sampleWidget.filters_tbw with rows := [sampleRow "a:b" 0 10] } }

/-- The remove button of the first sample row, as a sender. -/
def sampleRowButton : QObject := { addr := 10, isToolButton := true }

/-- The clear-all button as a sender: a tool button that sits in no row. -/
def sampleClearAllButton : QObject := { addr := 2, isToolButton := true }

/-- The table as a watched object. -/
def sampleTableObject : QObject := { addr := 1, isToolButton := false }

/-- A key press of the Delete key. -/
def sampleDeletePress : QEvent := { type := KeyPress, key := Key_Delete }

/-! ## Supporting lemmas -/

theorem insertAt_length {α : Type} (x : α) (l : List α) : insertAt x l.length l = l ++ [x] := by
  induction l with
  | nil => rfl
  | cons y ys ih => simp [insertAt, ih]

theorem join_three (sep a b c : String) : join sep [a, b, c] = a ++ sep ++ b ++ sep ++ c := by
  simp [join, String.append_assoc]

namespace ObjectsFilterWidget

theorem addFilter_rows (env : Env) (w : ObjectsFilterWidget) :
    (addFilter env w).filters_tbw.rows = w.filters_tbw.rows ++
      [{ object_cmb := createObjectsCombo env
         item := { text := "", flags := ItemIsEditable ||| ItemIsEnabled ||| ItemIsSelectable,
                   persistentEditorOpen := false }
         mode_cmb := ((QComboBox.new).setStyleSheet "border: 0px").addItems
           [env.tr "Exact", env.tr "Like", env.tr "Regexp"]
         rem_tb := w.heap }] := by
  simp [addFilter, QTableWidget.insertRow, QTableWidget.rowCount, insertAt_length]

theorem modeAt_zero (env : Env) : modeAt env 0 = some env.FilterExact := by
  simp [modeAt, modes]

theorem modeAt_one (env : Env) : modeAt env 1 = some env.FilterLike := by
  simp [modeAt, modes]

theorem modeAt_two (env : Env) : modeAt env 2 = some env.FilterRegExp := by
  simp [modeAt, modes]

theorem filterLoop_map (env : Env) (g : Row → String) (rows : List Row) (filters : List String)
    (h : ∀ r ∈ rows, rowFilter env r = some (g r)) :
    filterLoop env rows filters = some (filters ++ rows.map g) := by
  induction rows generalizing filters with
  | nil => simp [filterLoop]
  | cons r rest ih =>
    have hr := h r (by simp)
    have hrest : ∀ r' ∈ rest, rowFilter env r' = some (g r') := fun r' hr' => h r' (by simp [hr'])
    simp [filterLoop, hr, ih _ hrest]

theorem filterLoop_some (env : Env) (rows : List Row) (filters out : List String)
    (h : filterLoop env rows filters = some out) :
    ∃ fs, out = filters ++ fs ∧ fs.length = rows.length ∧
      ∀ (i : Nat) (r : Row), rows[i]? = some r → rowFilter env r = fs[i]? := by
  induction rows generalizing filters with
  | nil =>
    refine ⟨[], ?_, rfl, ?_⟩
    · simpa [filterLoop] using h.symm
    · intro i r hi; simp at hi
  | cons r rest ih =>
    simp only [filterLoop] at h
    cases hf : rowFilter env r with
    | none => simp [hf] at h
    | some f =>
      simp only [hf] at h
      obtain ⟨fs, hout, hlen, hidx⟩ := ih _ h
      refine ⟨f :: fs, by simp [hout], by simp [hlen], ?_⟩
      intro i r' hi
      cases i with
      | zero =>
        simp at hi
        subst hi
        simp [hf]
      | succ j =>
        simp at hi
        simpa using hidx j r' hi

theorem findButtonRow_none (btn : Addr) (rows : List Row) (start : Nat)
    (h : ∀ r ∈ rows, r.rem_tb ≠ btn) : findButtonRow btn rows start = none := by
  induction rows generalizing start with
  | nil => rfl
  | cons r rest ih =>
    have hr := h r (by simp)
    simp [findButtonRow, hr, ih (start + 1) (fun r' hr' => h r' (by simp [hr']))]

theorem findButtonRow_bound (btn : Addr) (rows : List Row) (start k : Nat)
    (h : findButtonRow btn rows start = some k) : start ≤ k ∧ k < start + rows.length := by
  induction rows generalizing start with
  | nil => simp [findButtonRow] at h
  | cons r rest ih =>
    simp only [findButtonRow] at h
    split at h
    · simp at h
      subst h
      simp
    · have := ih (start + 1) h
      simp only [List.length_cons]
      omega

theorem findButtonRow_nodup (rows : List Row) (start r : Nat) (row : Row)
    (hn : (rows.map (fun x => x.rem_tb)).Nodup) (hr : rows[r]? = some row) :
    findButtonRow row.rem_tb rows start = some (start + r) := by
  induction rows generalizing start r with
  | nil => simp at hr
  | cons x rest ih =>
    simp only [List.map_cons, List.nodup_cons] at hn
    cases r with
    | zero =>
      simp at hr
      subst hr
      simp [findButtonRow]
    | succ j =>
      simp at hr
      have hmem : row.rem_tb ∈ rest.map (fun x => x.rem_tb) :=
        List.mem_map.mpr ⟨row, List.getElem?_mem hr, rfl⟩
      have hne : x.rem_tb ≠ row.rem_tb := fun e => hn.1 (e ▸ hmem)
      simp only [findButtonRow, hne, if_false]
      rw [ih (start + 1) j hn.2 hr]
      congr 1
      omega

theorem removeRow_rows (vb : ViewBehaviour) (t : QTableWidget) (k : Nat) (hk : k < t.rows.length) :
    (t.removeRow vb (k : Int)).rows = t.rows.eraseIdx k := by
  have h1 : (0 : Int) ≤ (k : Int) := Int.ofNat_nonneg k
  have h2 : (k : Int) < t.rowCount := by
    simp only [QTableWidget.rowCount]
    exact_mod_cast hk
  simp [QTableWidget.removeRow, h1, h2]

theorem removeRow_negative (vb : ViewBehaviour) (t : QTableWidget) (row : Int) (h : row < 0) :
    t.removeRow vb row = t := by
  have : ¬ (0 ≤ row) := by omega
  simp [QTableWidget.removeRow, this]

theorem length_eraseIdx_succ {α : Type} (l : List α) (k : Nat) (hk : k < l.length) :
    (l.eraseIdx k).length + 1 = l.length := by
  rw [List.length_eraseIdx]
  simp [hk]
  omega

theorem removeFilter_button_found (vb : ViewBehaviour) (sender : Option QObject)
    (w : ObjectsFilterWidget) (b : Addr) (k : Nat)
    (hb : qobject_cast_QToolButton sender = some b)
    (hk : findButtonRow b w.filters_tbw.rows 0 = some k) :
    (removeFilter vb sender w).filters_tbw.rows = w.filters_tbw.rows.eraseIdx k := by
  have hlt : k < w.filters_tbw.rows.length := by
    have := findButtonRow_bound b w.filters_tbw.rows 0 k hk
    omega
  simp [removeFilter, hb, hk, QTableWidget.clearSelection, removeRow_rows vb _ k hlt]

theorem removeFilter_button_missing (vb : ViewBehaviour) (sender : Option QObject)
    (w : ObjectsFilterWidget) (b : Addr)
    (hb : qobject_cast_QToolButton sender = some b)
    (hk : findButtonRow b w.filters_tbw.rows 0 = none) :
    (removeFilter vb sender w).filters_tbw =
      (w.filters_tbw.removeRow vb w.filters_tbw.currentRow).clearSelection := by
  simp [removeFilter, hb, hk]

theorem removeFilter_no_button (vb : ViewBehaviour) (sender : Option QObject)
    (w : ObjectsFilterWidget) (hb : qobject_cast_QToolButton sender = none)
    (hc : 0 ≤ w.filters_tbw.currentRow) :
    (removeFilter vb sender w).filters_tbw =
      (w.filters_tbw.removeRow vb w.filters_tbw.currentRow).clearSelection := by
  have : ¬ (w.filters_tbw.currentRow < 0) := by omega
  simp [removeFilter, hb, this]

theorem removeFilter_early (vb : ViewBehaviour) (sender : Option QObject)
    (w : ObjectsFilterWidget) (hb : qobject_cast_QToolButton sender = none)
    (hc : w.filters_tbw.currentRow < 0) : removeFilter vb sender w = w := by
  simp [removeFilter, hb, hc]

theorem removeFilter_enabled (vb : ViewBehaviour) (sender : Option QObject)
    (w : ObjectsFilterWidget)
    (h : ¬ ((qobject_cast_QToolButton sender).isNone ∧ w.filters_tbw.currentRow < 0)) :
    (removeFilter vb sender w).clear_all_tb.enabled =
      decide ((removeFilter vb sender w).filters_tbw.rows ≠ []) := by
  simp only [removeFilter, h, if_false, QTableWidget.rowCount]
  simp

theorem currentRow_eq (t : QTableWidget) (c : Cell) (h : t.current = some c) :
    t.currentRow = (c.1 : Int) := by
  simp [QTableWidget.currentRow, h]

theorem clearSelection_rows (t : QTableWidget) : t.clearSelection.rows = t.rows := rfl

theorem setCurrentCell_rows (vb : ViewBehaviour) (t : QTableWidget) (row column : Nat) :
    (t.setCurrentCell vb row column).rows = t.rows := rfl

theorem setCurrentCell_origin (vb : ViewBehaviour) (t : QTableWidget) (h : t.rows ≠ []) :
    (t.setCurrentCell vb 0 0).currentRow = 0 := by
  have hpos : 0 < t.rows.length := List.length_pos.mpr h
  simp [QTableWidget.setCurrentCell, QTableWidget.setCurrentIndex, QTableWidget.currentRow,
    hpos, columnCount]

theorem removeRow_origin (vb : ViewBehaviour) (t : QTableWidget) (h : t.rows ≠ []) :
    (t.removeRow vb 0).rows = t.rows.eraseIdx 0 := by
  have hpos : 0 < t.rows.length := List.length_pos.mpr h
  exact removeRow_rows vb t 0 hpos

theorem loop_body_length (vb : ViewBehaviour) (sender : Option QObject) (w : ObjectsFilterWidget)
    (h : w.filters_tbw.rows ≠ []) :
    (removeFilter vb sender
      { w with filters_tbw := w.filters_tbw.setCurrentCell vb 0 0 }).filters_tbw.rows.length + 1
      = w.filters_tbw.rows.length := by
  have hpos : 0 < w.filters_tbw.rows.length := List.length_pos.mpr h
  have hcur := setCurrentCell_origin vb w.filters_tbw h
  have hfall : ((w.filters_tbw.setCurrentCell vb 0 0).removeRow vb
      (w.filters_tbw.setCurrentCell vb 0 0).currentRow).clearSelection.rows
      = w.filters_tbw.rows.eraseIdx 0 := by
    rw [hcur, clearSelection_rows]
    exact removeRow_origin vb _ h
  cases hb : qobject_cast_QToolButton sender with
  | none =>
    rw [removeFilter_no_button vb sender _ hb (by simp only [hcur]; exact le_refl _), hfall]
    exact length_eraseIdx_succ _ 0 hpos
  | some b =>
    cases hk : findButtonRow b w.filters_tbw.rows 0 with
    | none =>
      rw [removeFilter_button_missing vb sender _ b hb (by simpa [setCurrentCell_rows] using hk),
        hfall]
      exact length_eraseIdx_succ _ 0 hpos
    | some k =>
      have hlt : k < w.filters_tbw.rows.length := by
        have := findButtonRow_bound b w.filters_tbw.rows 0 k hk
        omega
      rw [removeFilter_button_found vb sender _ b k hb (by simpa [setCurrentCell_rows] using hk)]
      exact length_eraseIdx_succ _ k hlt

theorem removeAllLoop_terminates (vb : ViewBehaviour) (sender : Option QObject) (fuel : Nat)
    (w : ObjectsFilterWidget) (h : w.filters_tbw.rows.length ≤ fuel) :
    ∃ w', removeAllLoop vb sender fuel w = some w' ∧ w'.filters_tbw.rows = [] := by
  induction fuel generalizing w with
  | zero =>
    have hnil : w.filters_tbw.rows = [] := List.length_eq_zero.mp (by omega)
    exact ⟨w, by simp [removeAllLoop, QTableWidget.rowCount, hnil], hnil⟩
  | succ n ih =>
    by_cases hnil : w.filters_tbw.rows = []
    · exact ⟨w, by simp [removeAllLoop, QTableWidget.rowCount, hnil], hnil⟩
    · have hlen := loop_body_length vb sender w hnil
      obtain ⟨w', hw', hrows⟩ := ih
        (removeFilter vb sender { w with filters_tbw := w.filters_tbw.setCurrentCell vb 0 0 })
        (by omega)
      exact ⟨w', by simp [removeAllLoop, QTableWidget.rowCount, hnil, hw'], hrows⟩

theorem removeAllFilters_terminates (vb : ViewBehaviour) (sender : Option QObject) (fuel : Nat)
    (w : ObjectsFilterWidget) (h : w.filters_tbw.rows.length ≤ fuel) :
    ∃ w', removeAllFilters vb sender fuel w = some w' ∧ w'.filters_tbw.rows = [] ∧
      w'.clear_all_tb.enabled = false := by
  obtain ⟨w1, hw1, hrows⟩ := removeAllLoop_terminates vb sender fuel w h
  exact ⟨{ w1 with clear_all_tb := { enabled := false } }, by simp [removeAllFilters, hw1],
    hrows, rfl⟩

end ObjectsFilterWidget

/-! ### Splitting on a one-character separator -/

theorem isPrefixOf_single (c d : Char) (rest : List Char) :
    [c].isPrefixOf (d :: rest) = (c == d) := by
  simp [List.isPrefixOf]

theorem splitAux_single_absent (c : Char) (l cur : List Char) (h : c ∉ l) :
    splitAux [c] l cur 0 = [cur.reverse ++ l] := by
  induction l generalizing cur with
  | nil => simp [splitAux]
  | cons d rest ih =>
    have hd : c ≠ d := fun e => h (by simp [e])
    have hrest : c ∉ rest := fun e => h (by simp [e])
    simp [splitAux, isPrefixOf_single, hd, ih _ hrest]

theorem splitAux_single_field (c : Char) (l rest cur : List Char) (h : c ∉ l) :
    splitAux [c] (l ++ c :: rest) cur 0 = (cur.reverse ++ l) :: splitAux [c] rest [] 0 := by
  induction l generalizing cur with
  | nil => simp [splitAux, isPrefixOf_single]
  | cons d tl ih =>
    have hd : c ≠ d := fun e => h (by simp [e])
    have htl : c ∉ tl := fun e => h (by simp [e])
    simp [splitAux, isPrefixOf_single, hd, ih _ htl]

theorem splitAux_single_length (c : Char) (l cur : List Char) :
    (splitAux [c] l cur 0).length = l.count c + 1 := by
  induction l generalizing cur with
  | nil => simp [splitAux]
  | cons d rest ih =>
    by_cases hd : c = d
    · subst hd
      simp [splitAux, isPrefixOf_single, ih]
    · have hd' : ¬ d = c := fun e => hd e.symm
      simp [splitAux, isPrefixOf_single, hd, ih, List.count_cons, hd']

theorem containsAux_single (c : Char) (l : List Char) : containsAux [c] l = true ↔ c ∈ l := by
  induction l with
  | nil => simp [containsAux, List.isPrefixOf]
  | cons d rest ih =>
    simp only [containsAux, isPrefixOf_single, Bool.or_eq_true, ih, List.mem_cons]
    simp

theorem FilterSeparator_data : FilterSeparator.data = [':'] := rfl

theorem contains_separator (s : String) : contains s FilterSeparator = true ↔ ':' ∈ s.data := by
  simp [contains, FilterSeparator_data, containsAux_single]

theorem split_separator (s : String) :
    split s FilterSeparator = (splitAux [':'] s.data [] 0).map String.mk := by
  simp [split, FilterSeparator_data]

theorem joined_data (a b c : String) :
    (a ++ FilterSeparator ++ b ++ FilterSeparator ++ c).data
      = a.data ++ ':' :: (b.data ++ ':' :: c.data) := by
  simp [String.data_append, FilterSeparator_data]

theorem split_joined (a b c : String) (ha : contains a FilterSeparator = false)
    (hb : contains b FilterSeparator = false) (hc : contains c FilterSeparator = false) :
    split (a ++ FilterSeparator ++ b ++ FilterSeparator ++ c) FilterSeparator = [a, b, c] := by
  have ha' : ':' ∉ a.data := fun h => by simp [(contains_separator a).mpr h] at ha
  have hb' : ':' ∉ b.data := fun h => by simp [(contains_separator b).mpr h] at hb
  have hc' : ':' ∉ c.data := fun h => by simp [(contains_separator c).mpr h] at hc
  rw [split_separator, joined_data, splitAux_single_field _ _ _ _ ha',
    splitAux_single_field _ _ _ _ hb', splitAux_single_absent _ _ _ hc']
  simp

theorem split_joined_length (a b c : String) (hb : contains b FilterSeparator = true) :
    3 < (split (a ++ FilterSeparator ++ b ++ FilterSeparator ++ c) FilterSeparator).length := by
  have hb' : 0 < b.data.count ':' := List.count_pos_iff.mpr ((contains_separator b).mp hb)
  rw [split_separator, joined_data, List.length_map, splitAux_single_length]
  simp only [List.count_append, List.count_cons, beq_self_eq_true, if_true]
  omega

namespace ObjectsFilterWidget

/-! ### The remove buttons stay distinct -/

theorem removeRow_sublist (vb : ViewBehaviour) (t : QTableWidget) (row : Int) :
    (t.removeRow vb row).rows.Sublist t.rows := by
  unfold QTableWidget.removeRow
  split
  · exact List.eraseIdx_sublist _ _
  · exact List.Sublist.refl _

theorem removeFilter_sublist (vb : ViewBehaviour) (sender : Option QObject)
    (w : ObjectsFilterWidget) :
    (removeFilter vb sender w).filters_tbw.rows.Sublist w.filters_tbw.rows := by
  by_cases hearly : (qobject_cast_QToolButton sender).isNone ∧ w.filters_tbw.currentRow < 0
  · simp only [removeFilter, hearly, and_self, if_true]
    exact List.Sublist.refl _
  · simp only [removeFilter, hearly, if_false]
    exact removeRow_sublist vb _ _

theorem removeFilter_heap (vb : ViewBehaviour) (sender : Option QObject)
    (w : ObjectsFilterWidget) : (removeFilter vb sender w).heap = w.heap := by
  by_cases hearly : (qobject_cast_QToolButton sender).isNone ∧ w.filters_tbw.currentRow < 0
  · simp only [removeFilter, hearly, and_self, if_true]
  · simp only [removeFilter, hearly, if_false]

theorem distinctButtons_addFilter (env : Env) (w : ObjectsFilterWidget) (h : DistinctButtons w) :
    DistinctButtons (addFilter env w) := by
  obtain ⟨hn, hlt⟩ := h
  unfold DistinctButtons
  rw [addFilter_rows]
  have hheap : (addFilter env w).heap = w.heap + 1 := rfl
  rw [hheap]
  constructor
  · rw [List.map_append, List.nodup_append]
    refine ⟨hn, by simp, ?_⟩
    intro a ha hb
    simp only [List.map_cons, List.map_nil, List.mem_singleton] at hb
    obtain ⟨r, hr, rfl⟩ := List.mem_map.mp ha
    exact absurd hb (Nat.ne_of_lt (hlt r hr))
  · intro r hr
    rcases List.mem_append.mp hr with h1 | h1
    · exact Nat.lt_succ_of_lt (hlt r h1)
    · simp only [List.mem_singleton] at h1
      subst h1
      exact Nat.lt_succ_self _

theorem distinctButtons_removeFilter (vb : ViewBehaviour) (sender : Option QObject)
    (w : ObjectsFilterWidget) (h : DistinctButtons w) :
    DistinctButtons (removeFilter vb sender w) := by
  obtain ⟨hn, hlt⟩ := h
  have hsub := removeFilter_sublist vb sender w
  refine ⟨(hsub.map _).nodup hn, ?_⟩
  intro r hr
  rw [removeFilter_heap]
  exact hlt r (hsub.subset hr)

theorem distinctButtons_getFilterString (env : Env) (vb : ViewBehaviour)
    (w : ObjectsFilterWidget) (h : DistinctButtons w) :
    DistinctButtons (getFilterString env vb w).2 := h

theorem removeAllLoop_result_empty (vb : ViewBehaviour) (sender : Option QObject) (fuel : Nat)
    (w w' : ObjectsFilterWidget) (h : removeAllLoop vb sender fuel w = some w') :
    w'.filters_tbw.rows = [] := by
  induction fuel generalizing w with
  | zero =>
    simp only [removeAllLoop, QTableWidget.rowCount] at h
    split at h
    · cases h
    · rename_i hz
      cases h
      simpa using hz
  | succ n ih =>
    simp only [removeAllLoop, QTableWidget.rowCount] at h
    split at h
    · exact ih _ h
    · rename_i hz
      cases h
      simpa using hz

theorem eventFilter_state (vb : ViewBehaviour) (sender : Option QObject) (object : QObject)
    (ev : QEvent) (w : ObjectsFilterWidget) :
    (eventFilter vb sender object ev w).2 = removeFilter vb sender w ∨
      (eventFilter vb sender object ev w).2 = w := by
  unfold eventFilter
  split
  · exact Or.inl rfl
  · exact Or.inr rfl

theorem reachable_distinctButtons (env : Env) (vb : ViewBehaviour) (w : ObjectsFilterWidget)
    (h : Reachable env vb w) : DistinctButtons w := by
  induction h with
  | start w hw => simp [DistinctButtons, hw]
  | interact w w' _ hbtn hheap ih =>
    obtain ⟨hn, hlt⟩ := ih
    refine ⟨hbtn ▸ hn, ?_⟩
    intro r hr
    have hmem : r.rem_tb ∈ w.filters_tbw.rows.map (fun r => r.rem_tb) :=
      hbtn ▸ List.mem_map.mpr ⟨r, hr, rfl⟩
    obtain ⟨r0, hr0, he⟩ := List.mem_map.mp hmem
    rw [hheap, ← he]
    exact hlt r0 hr0
  | add w _ ih => exact distinctButtons_addFilter env w ih
  | remove sender w _ ih => exact distinctButtons_removeFilter vb sender w ih
  | removeAll sender fuel w w' _ hrun _ =>
    obtain ⟨w1, hw1, hw'⟩ := Option.map_eq_some'.mp hrun
    have hnil := removeAllLoop_result_empty vb sender fuel w w1 hw1
    subst hw'
    simp [DistinctButtons, hnil]
  | filterString w _ ih => exact ih
  | event sender object ev w _ ih =>
    rcases eventFilter_state vb sender object ev w with h | h
    · rw [h]
      exact distinctButtons_removeFilter vb sender w ih
    · rw [h]
      exact ih

theorem distinctButtons_removeAllFilters (vb : ViewBehaviour) (sender : Option QObject)
    (fuel : Nat) (w : ObjectsFilterWidget) (h : w.filters_tbw.rows.length ≤ fuel) :
    ∃ w', removeAllFilters vb sender fuel w = some w' ∧ DistinctButtons w' := by
  obtain ⟨w', hw', hrows, _⟩ := removeAllFilters_terminates vb sender fuel w h
  exact ⟨w', hw', by simp [DistinctButtons, hrows]⟩

end ObjectsFilterWidget

/-! ## The claims -/

namespace ObjectsFilterWidget

/-- C1: for a table whose rows all have mode index 0, 1 or 2, getFilterString returns exactly one
string per row, in row order, and the string of a row is the schema name of its type, the
separator, its pattern, the separator and its mode token (FilterExact for index 0, FilterLike for
index 1, FilterRegExp for index 2); nothing else is appended. -/
theorem C1_getFilterString_one_string_per_row (env : Env) (vb : ViewBehaviour)
    (w : ObjectsFilterWidget)
    (hmode : ∀ r ∈ w.filters_tbw.rows,
      r.mode_cmb.currentIndex = 0 ∨ r.mode_cmb.currentIndex = 1 ∨ r.mode_cmb.currentIndex = 2) :
    ∃ filters, (getFilterString env vb w).1 = some filters ∧
      filters.length = w.filters_tbw.rows.length ∧
      ∀ (i : Nat) (r : Row), w.filters_tbw.rows[i]? = some r →
        filters[i]? = some (env.getSchemaName (toUInt r.object_cmb.currentData)
          ++ FilterSeparator ++ r.item.text ++ FilterSeparator
          ++ (if r.mode_cmb.currentIndex = 0 then env.FilterExact
              else if r.mode_cmb.currentIndex = 1 then env.FilterLike
              else env.FilterRegExp)) := by
  obtain ⟨g, hg⟩ : ∃ g : Row → String, ∀ r, g r =
      env.getSchemaName (toUInt r.object_cmb.currentData)
          ++ FilterSeparator ++ r.item.text ++ FilterSeparator
          ++ (if r.mode_cmb.currentIndex = 0 then env.FilterExact
              else if r.mode_cmb.currentIndex = 1 then env.FilterLike
              else env.FilterRegExp) := ⟨_, fun _ => rfl⟩
  have hrow : ∀ r ∈ w.filters_tbw.rows, rowFilter env r = some (g r) := by
    intro r hr
    rw [hg]
    rcases hmode r hr with h | h | h
    · simp [rowFilter, h, modeAt_zero, join_three]
    · simp [rowFilter, h, modeAt_one, join_three]
    · simp [rowFilter, h, modeAt_two, join_three]
  have key := filterLoop_map env g w.filters_tbw.rows [] hrow
  refine ⟨w.filters_tbw.rows.map g, ?_, ?_, ?_⟩
  · simpa [getFilterString, QTableWidget.setCurrentIndex] using key
  · simp
  · intro i r hi
    simp [List.getElem?_map, hi, hg]

/-- C1 at the sample widget: its three rows have mode indexes 0, 1 and 2. -/
theorem C1_witness :
    (∀ r ∈ sampleWidget.filters_tbw.rows,
      r.mode_cmb.currentIndex = 0 ∨ r.mode_cmb.currentIndex = 1 ∨ r.mode_cmb.currentIndex = 2) ∧
    ∃ filters, (getFilterString sampleEnv itemView sampleWidget).1 = some filters ∧
      filters.length = sampleWidget.filters_tbw.rows.length ∧
      ∀ (i : Nat) (r : Row), sampleWidget.filters_tbw.rows[i]? = some r →
        filters[i]? = some (sampleEnv.getSchemaName (toUInt r.object_cmb.currentData)
          ++ FilterSeparator ++ r.item.text ++ FilterSeparator
          ++ (if r.mode_cmb.currentIndex = 0 then sampleEnv.FilterExact
              else if r.mode_cmb.currentIndex = 1 then sampleEnv.FilterLike
              else sampleEnv.FilterRegExp)) :=
  ⟨by decide, C1_getFilterString_one_string_per_row sampleEnv itemView sampleWidget (by decide)⟩

/-- C2: addFilter turns a table of n rows into one of n+1 rows: the first n rows are untouched
and stay in place, the new row sits at index n with an empty pattern and a mode selector holding
the three entries Exact, Like and Regexp with the first one current, and the clear-all button is
enabled. -/
theorem C2_addFilter_appends_row (env : Env) (w : ObjectsFilterWidget) :
    (addFilter env w).filters_tbw.rows.length = w.filters_tbw.rows.length + 1 ∧
    (∀ i : Nat, i < w.filters_tbw.rows.length →
      (addFilter env w).filters_tbw.rows[i]? = w.filters_tbw.rows[i]?) ∧
    (∃ r, (addFilter env w).filters_tbw.rows[w.filters_tbw.rows.length]? = some r ∧
      r.item.text = "" ∧
      r.mode_cmb.items.map (fun it => it.text) = [env.tr "Exact", env.tr "Like", env.tr "Regexp"] ∧
      r.mode_cmb.currentIndex = 0) ∧
    (addFilter env w).clear_all_tb.enabled = true := by
  refine ⟨?_, ?_, ?_, rfl⟩
  · simp [addFilter_rows]
  · intro i hi
    rw [addFilter_rows, List.getElem?_append_left hi]
  · rw [addFilter_rows]
    refine ⟨_, List.getElem?_concat_length _ _, ?_, ?_, ?_⟩ <;> rfl

/-- C2 at the sample widget: the three rows stay and a fourth one is appended. -/
theorem C2_witness :
    (addFilter sampleEnv sampleWidget).filters_tbw.rows.length = 4 ∧
    (addFilter sampleEnv sampleWidget).filters_tbw.rows[1]? = some (sampleRow "b%" 1 11) ∧
    (addFilter sampleEnv sampleWidget).clear_all_tb.enabled = true :=
  ⟨(C2_addFilter_appends_row sampleEnv sampleWidget).1,
   (C2_addFilter_appends_row sampleEnv sampleWidget).2.1 1 (by decide),
   (C2_addFilter_appends_row sampleEnv sampleWidget).2.2.2⟩

/-- C3: when the sender is the remove button of row r (the buttons of different rows being different
objects), removeFilter deletes exactly row r, whatever the current index of the table is: the row
count drops by one, the rows before r keep their place and the rows after r move up by one. -/
theorem C3_removeFilter_deletes_row_of_button (vb : ViewBehaviour) (w : ObjectsFilterWidget)
    (r : Nat) (row : Row)
    (hdistinct : (w.filters_tbw.rows.map (fun x => x.rem_tb)).Nodup)
    (hr : w.filters_tbw.rows[r]? = some row) :
    (removeFilter vb (some { addr := row.rem_tb, isToolButton := true }) w).filters_tbw.rows
      = w.filters_tbw.rows.eraseIdx r ∧
    (removeFilter vb (some { addr := row.rem_tb, isToolButton := true }) w).filters_tbw.rows.length + 1
      = w.filters_tbw.rows.length ∧
    (∀ i : Nat, i < r →
      (removeFilter vb (some { addr := row.rem_tb, isToolButton := true }) w).filters_tbw.rows[i]?
        = w.filters_tbw.rows[i]?) ∧
    (∀ i : Nat, r ≤ i →
      (removeFilter vb (some { addr := row.rem_tb, isToolButton := true }) w).filters_tbw.rows[i]?
        = w.filters_tbw.rows[i + 1]?) := by
  have hlt : r < w.filters_tbw.rows.length := by
    rcases Nat.lt_or_ge r w.filters_tbw.rows.length with h | h
    · exact h
    · rw [List.getElem?_eq_none h] at hr
      cases hr
  have hfind := findButtonRow_nodup w.filters_tbw.rows 0 r row hdistinct hr
  rw [Nat.zero_add] at hfind
  have hrows := removeFilter_button_found vb (some { addr := row.rem_tb, isToolButton := true }) w
    row.rem_tb r rfl hfind
  rw [hrows]
  exact ⟨rfl, length_eraseIdx_succ _ r hlt,
    fun i hi => List.getElem?_eraseIdx_of_lt _ _ _ hi,
    fun i hi => List.getElem?_eraseIdx_of_ge _ _ _ hi⟩

/-- C3 at the sample widget: the sender is the button of row 0 while row 1 is current. -/
theorem C3_witness :
    (removeFilter itemView (some { addr := (sampleRow "a" 0 10).rem_tb, isToolButton := true })
      sampleWidget).filters_tbw.rows = [sampleRow "b%" 1 11, sampleRow "^c" 2 12] :=
  (C3_removeFilter_deletes_row_of_button itemView sampleWidget 0 (sampleRow "a" 0 10)
    (by decide) rfl).1

/-- C4: removeAllFilters terminates from every state and for every sender: an iteration of its
loop removes exactly one row, so as many iterations as there are rows suffice, and the run ends
with an empty table and the clear-all button disabled. -/
theorem C4_removeAllFilters_terminates_empty (vb : ViewBehaviour) (sender : Option QObject)
    (w : ObjectsFilterWidget) :
    (w.filters_tbw.rows ≠ [] →
      (removeFilter vb sender
        { w with filters_tbw := w.filters_tbw.setCurrentCell vb 0 0 }).filters_tbw.rows.length + 1
        = w.filters_tbw.rows.length) ∧
    ∀ fuel : Nat, w.filters_tbw.rows.length ≤ fuel →
      ∃ w', removeAllFilters vb sender fuel w = some w' ∧ w'.filters_tbw.rows = [] ∧
        w'.clear_all_tb.enabled = false :=
  ⟨loop_body_length vb sender w, fun fuel h => removeAllFilters_terminates vb sender fuel w h⟩

/-- C4 at the sample widget, the clear-all button being the sender: three iterations suffice. -/
theorem C4_witness :
    ∃ w', removeAllFilters itemView (some sampleClearAllButton) 3 sampleWidget = some w' ∧
      w'.filters_tbw.rows = [] ∧ w'.clear_all_tb.enabled = false :=
  (C4_removeAllFilters_terminates_empty itemView (some sampleClearAllButton) sampleWidget).2 3
    (by decide)

theorem clearAllConsistent_of_enabled (w : ObjectsFilterWidget)
    (h : w.clear_all_tb.enabled = decide (w.filters_tbw.rows ≠ [])) : ClearAllConsistent w := by
  simp [ClearAllConsistent, h]

theorem clearAllConsistent_addFilter (env : Env) (w : ObjectsFilterWidget) :
    ClearAllConsistent (addFilter env w) := by
  apply clearAllConsistent_of_enabled
  rw [addFilter_rows]
  simp [addFilter]

theorem clearAllConsistent_removeFilter (vb : ViewBehaviour) (sender : Option QObject)
    (w : ObjectsFilterWidget) (h : ClearAllConsistent w) :
    ClearAllConsistent (removeFilter vb sender w) := by
  by_cases hearly : (qobject_cast_QToolButton sender).isNone ∧ w.filters_tbw.currentRow < 0
  · have hb : qobject_cast_QToolButton sender = none := by simpa using hearly.1
    rw [removeFilter_early vb sender w hb hearly.2]
    exact h
  · exact clearAllConsistent_of_enabled _ (removeFilter_enabled vb sender w hearly)

theorem clearAllConsistent_removeAllFilters (vb : ViewBehaviour) (sender : Option QObject)
    (fuel : Nat) (w : ObjectsFilterWidget) (h : w.filters_tbw.rows.length ≤ fuel) :
    ∃ w', removeAllFilters vb sender fuel w = some w' ∧ ClearAllConsistent w' := by
  obtain ⟨w', hw', hrows, hen⟩ := removeAllFilters_terminates vb sender fuel w h
  exact ⟨w', hw', clearAllConsistent_of_enabled w' (by simp [hrows, hen])⟩

/-- C5: the clear-all button being enabled exactly when the table has a row holds after addFilter,
after removeAllFilters and after every removeFilter call that does not return early, and each of
addFilter, removeFilter, removeAllFilters and getFilterString keeps it when it held before. -/
theorem C5_clear_all_consistency_invariant (env : Env) (vb : ViewBehaviour)
    (sender : Option QObject) (w : ObjectsFilterWidget) :
    ClearAllConsistent (addFilter env w) ∧
    (∀ fuel : Nat, w.filters_tbw.rows.length ≤ fuel →
      ∃ w', removeAllFilters vb sender fuel w = some w' ∧ ClearAllConsistent w') ∧
    (¬ ((qobject_cast_QToolButton sender).isNone ∧ w.filters_tbw.currentRow < 0) →
      ClearAllConsistent (removeFilter vb sender w)) ∧
    (ClearAllConsistent w →
      ClearAllConsistent (addFilter env w) ∧
      ClearAllConsistent (removeFilter vb sender w) ∧
      (∀ fuel : Nat, w.filters_tbw.rows.length ≤ fuel →
        ∃ w', removeAllFilters vb sender fuel w = some w' ∧ ClearAllConsistent w') ∧
      ClearAllConsistent (getFilterString env vb w).2) :=
  ⟨clearAllConsistent_addFilter env w,
   fun fuel h => clearAllConsistent_removeAllFilters vb sender fuel w h,
   fun h => clearAllConsistent_of_enabled _ (removeFilter_enabled vb sender w h),
   fun h => ⟨clearAllConsistent_addFilter env w,
     clearAllConsistent_removeFilter vb sender w h,
     fun fuel hf => clearAllConsistent_removeAllFilters vb sender fuel w hf,
     h⟩⟩

/-- C5 at the sample widget, which is consistent: it stays so under removeFilter pressed on the
first row and under getFilterString. -/
theorem C5_witness :
    ClearAllConsistent sampleWidget ∧
    ClearAllConsistent (removeFilter itemView (some sampleRowButton) sampleWidget) ∧
    ClearAllConsistent (getFilterString sampleEnv itemView sampleWidget).2 :=
  have hw : ClearAllConsistent sampleWidget := by decide
  ⟨hw,
   ((C5_clear_all_consistency_invariant sampleEnv itemView (some sampleRowButton)
      sampleWidget).2.2.2 hw).2.1,
   ((C5_clear_all_consistency_invariant sampleEnv itemView (some sampleRowButton)
      sampleWidget).2.2.2 hw).2.2.2⟩

/-- C6: removeFilter called with no tool-button sender while the table has no current row returns
at once: the widget afterwards (rows, selection, clear-all button, everything) is the widget
before. -/
theorem C6_removeFilter_early_return (vb : ViewBehaviour) (sender : Option QObject)
    (w : ObjectsFilterWidget) (hbtn : qobject_cast_QToolButton sender = none)
    (hcur : w.filters_tbw.currentRow < 0) : removeFilter vb sender w = w :=
  removeFilter_early vb sender w hbtn hcur

/-- C6 at the sample widget without a current index, with a null sender. -/
theorem C6_witness :
    qobject_cast_QToolButton none = none ∧ sampleWidgetNoCurrent.filters_tbw.currentRow < 0 ∧
    removeFilter itemView none sampleWidgetNoCurrent = sampleWidgetNoCurrent :=
  ⟨rfl, by decide, C6_removeFilter_early_return itemView none sampleWidgetNoCurrent rfl (by decide)⟩

theorem currentItem_some (t : QTableWidget) (item : QTableWidgetItem)
    (h : t.currentItem = some item) :
    ∃ r : Nat, t.current = some (r, 1) ∧ r < t.rows.length := by
  unfold QTableWidget.currentItem at h
  cases hc : t.current with
  | none => simp [hc] at h
  | some c =>
    obtain ⟨r, col⟩ := c
    simp only [hc] at h
    by_cases hcol : col = 1
    · subst hcol
      refine ⟨r, rfl, ?_⟩
      rcases Nat.lt_or_ge r t.rows.length with hlt | hge
      · exact hlt
      · simp [List.getElem?_eq_none hge] at h
    · simp [hcol] at h

theorem eventFilter_fires (vb : ViewBehaviour) (sender : Option QObject) (object : QObject)
    (event : QEvent) (w : ObjectsFilterWidget)
    (h : event.type = KeyPress ∧ event.key = Key_Delete ∧ object.addr = w.filters_tbw.addr ∧
      ∃ item, w.filters_tbw.currentItem = some item ∧
        w.filters_tbw.isPersistentEditorOpen item = false) :
    eventFilter vb sender object event w = (false, removeFilter vb sender w) := by
  obtain ⟨h1, h2, h3, item, h4, h5⟩ := h
  simp [eventFilter, h1, h2, h3, h4, h5]

theorem eventFilter_idle (vb : ViewBehaviour) (sender : Option QObject) (object : QObject)
    (event : QEvent) (w : ObjectsFilterWidget)
    (h : ¬ (event.type = KeyPress ∧ event.key = Key_Delete ∧ object.addr = w.filters_tbw.addr ∧
      ∃ item, w.filters_tbw.currentItem = some item ∧
        w.filters_tbw.isPersistentEditorOpen item = false)) :
    eventFilter vb sender object event w = (false, w) := by
  unfold eventFilter
  split
  · rename_i hc
    exfalso
    apply h
    simp only [Bool.and_eq_true, decide_eq_true_eq] at hc
    obtain ⟨⟨⟨h1, h2⟩, h3⟩, h4⟩ := hc
    refine ⟨h1, h2, h3, ?_⟩
    cases hi : w.filters_tbw.currentItem with
    | none => simp [hi] at h4
    | some item =>
      refine ⟨item, rfl, ?_⟩
      simpa [hi] using h4
  · rfl

/-- C7: with no tool-button sender around, eventFilter removes a row exactly when the event is a
key press of Delete, the watched object is the filters table, the table has a current item and no
persistent editor is open on it; it then removes the row at the current row index by calling
removeFilter and returns false; for every other event the widget is left as it was. -/
theorem C7_eventFilter_delete_key (vb : ViewBehaviour) (sender : Option QObject)
    (object : QObject) (event : QEvent) (w : ObjectsFilterWidget)
    (hsender : qobject_cast_QToolButton sender = none) :
    ((event.type = KeyPress ∧ event.key = Key_Delete ∧ object.addr = w.filters_tbw.addr ∧
        ∃ item, w.filters_tbw.currentItem = some item ∧
          w.filters_tbw.isPersistentEditorOpen item = false) →
      ∃ r : Nat, w.filters_tbw.currentRow = (r : Int) ∧ r < w.filters_tbw.rows.length ∧
        (eventFilter vb sender object event w).2.filters_tbw.rows = w.filters_tbw.rows.eraseIdx r ∧
        (eventFilter vb sender object event w).2.filters_tbw.rows.length + 1
          = w.filters_tbw.rows.length ∧
        (eventFilter vb sender object event w).2 = removeFilter vb sender w ∧
        (eventFilter vb sender object event w).1 = false) ∧
    (¬ (event.type = KeyPress ∧ event.key = Key_Delete ∧ object.addr = w.filters_tbw.addr ∧
        ∃ item, w.filters_tbw.currentItem = some item ∧
          w.filters_tbw.isPersistentEditorOpen item = false) →
      (eventFilter vb sender object event w).2 = w) := by
  constructor
  · intro h
    rw [eventFilter_fires vb sender object event w h]
    obtain ⟨_, _, _, item, hitem, _⟩ := h
    obtain ⟨r, hcur, hlt⟩ := currentItem_some w.filters_tbw item hitem
    have hrow : w.filters_tbw.currentRow = (r : Int) := currentRow_eq _ _ hcur
    have hrows : (removeFilter vb sender w).filters_tbw.rows = w.filters_tbw.rows.eraseIdx r := by
      rw [removeFilter_no_button vb sender w hsender (by rw [hrow]; exact Int.ofNat_nonneg r),
        hrow, clearSelection_rows, removeRow_rows vb _ r hlt]
    refine ⟨r, hrow, hlt, hrows, ?_, rfl, rfl⟩
    show (removeFilter vb sender w).filters_tbw.rows.length + 1 = _
    rw [hrows]
    exact length_eraseIdx_succ _ r hlt
  · intro h
    rw [eventFilter_idle vb sender object event w h]

/-- C7 at the sample widget: Delete pressed on the table while the pattern of row 1 is current. -/
theorem C7_witness :
    (eventFilter itemView none sampleTableObject sampleDeletePress sampleWidget).2.filters_tbw.rows
      = [sampleRow "a" 0 10, sampleRow "^c" 2 12] := by
  obtain ⟨r, hr, _, hrows, _⟩ :=
    (C7_eventFilter_delete_key itemView none sampleTableObject sampleDeletePress sampleWidget
      rfl).1 ⟨rfl, rfl, rfl, (sampleRow "b%" 1 11).item, rfl, rfl⟩
  have h1 : r = 1 := by
    have : ((1 : Nat) : Int) = (r : Int) := hr
    exact_mod_cast this.symm
  subst h1
  exact hrows

/-- C9: when the sender is a tool button that sits in no row, removeFilter falls back to the
current row: with a current row index c inside the table exactly row c is removed, and with no
current row nothing is removed and the clear-all button is set from the unchanged row count. -/
theorem C9_removeFilter_foreign_button (vb : ViewBehaviour) (w : ObjectsFilterWidget) (btn : Addr)
    (hforeign : ∀ r ∈ w.filters_tbw.rows, r.rem_tb ≠ btn) :
    (∀ c : Nat, w.filters_tbw.currentRow = (c : Int) → c < w.filters_tbw.rows.length →
      (removeFilter vb (some { addr := btn, isToolButton := true }) w).filters_tbw.rows
        = w.filters_tbw.rows.eraseIdx c ∧
      (removeFilter vb (some { addr := btn, isToolButton := true }) w).filters_tbw.rows.length + 1
        = w.filters_tbw.rows.length) ∧
    (w.filters_tbw.currentRow < 0 →
      (removeFilter vb (some { addr := btn, isToolButton := true }) w).filters_tbw.rows
        = w.filters_tbw.rows ∧
      (removeFilter vb (some { addr := btn, isToolButton := true }) w).clear_all_tb.enabled
        = decide (w.filters_tbw.rows ≠ [])) := by
  have hfind := findButtonRow_none btn w.filters_tbw.rows 0 hforeign
  have htbw := removeFilter_button_missing vb (some { addr := btn, isToolButton := true }) w btn
    rfl hfind
  constructor
  · intro c hc hlt
    have hrows : (removeFilter vb (some { addr := btn, isToolButton := true }) w).filters_tbw.rows
        = w.filters_tbw.rows.eraseIdx c := by
      rw [htbw, hc, clearSelection_rows, removeRow_rows vb _ c hlt]
    rw [hrows]
    exact ⟨rfl, length_eraseIdx_succ _ c hlt⟩
  · intro hneg
    have hrows : (removeFilter vb (some { addr := btn, isToolButton := true }) w).filters_tbw.rows
        = w.filters_tbw.rows := by
      rw [htbw, removeRow_negative vb _ _ hneg, clearSelection_rows]
    refine ⟨hrows, ?_⟩
    rw [removeFilter_enabled vb _ w (by simp [qobject_cast_QToolButton]), hrows]

/-- C9 at the sample widget, the clear-all button being the sender: the current row 1 goes. -/
theorem C9_witness :
    (removeFilter itemView (some { addr := 2, isToolButton := true }) sampleWidget).filters_tbw.rows
      = [sampleRow "a" 0 10, sampleRow "^c" 2 12] :=
  ((C9_removeFilter_foreign_button itemView sampleWidget 2 (by decide)).1 1 rfl (by decide)).1

theorem rowFilter_eq (env : Env) (r : Row) :
    rowFilter env r = (modeAt env r.mode_cmb.currentIndex).map (fun token =>
      env.getSchemaName (toUInt r.object_cmb.currentData) ++ FilterSeparator ++ r.item.text
        ++ FilterSeparator ++ token) := by
  unfold rowFilter
  cases modeAt env r.mode_cmb.currentIndex with
  | none => rfl
  | some token => simp [join_three]

theorem getFilterString_at (env : Env) (vb : ViewBehaviour) (w : ObjectsFilterWidget)
    (filters : List String) (i : Nat) (r : Row)
    (hget : (getFilterString env vb w).1 = some filters) (hr : w.filters_tbw.rows[i]? = some r) :
    ∃ token, modeAt env r.mode_cmb.currentIndex = some token ∧
      filters[i]? = some (env.getSchemaName (toUInt r.object_cmb.currentData) ++ FilterSeparator
        ++ r.item.text ++ FilterSeparator ++ token) := by
  have hloop : filterLoop env w.filters_tbw.rows [] = some filters := hget
  obtain ⟨fs, hout, hlen, hidx⟩ := filterLoop_some env _ _ _ hloop
  rw [List.nil_append] at hout
  subst hout
  have hi := hidx i r hr
  rw [rowFilter_eq] at hi
  cases hm : modeAt env r.mode_cmb.currentIndex with
  | none =>
    rw [hm] at hi
    have hlt : i < w.filters_tbw.rows.length := by
      rcases Nat.lt_or_ge i w.filters_tbw.rows.length with h | h
      · exact h
      · rw [List.getElem?_eq_none h] at hr
        cases hr
    have : filters[i]? = none := hi.symm
    rw [List.getElem?_eq_none_iff] at this
    omega
  | some token =>
    rw [hm] at hi
    exact ⟨token, rfl, hi.symm⟩

/-- C8: whenever getFilterString succeeds, the string it produces for a row whose schema name,
pattern and mode token are free of the separator splits on the separator into exactly these three
fields, while a pattern containing the separator makes the split yield more than three fields;
such a row exists, so the widget neither escapes nor rejects the separator in a pattern. -/
theorem C8_split_inverts_serialisation (env : Env) (vb : ViewBehaviour) :
    (∀ (w : ObjectsFilterWidget) (filters : List String) (i : Nat) (r : Row),
      (getFilterString env vb w).1 = some filters → w.filters_tbw.rows[i]? = some r →
      ∃ f token, filters[i]? = some f ∧ modeAt env r.mode_cmb.currentIndex = some token ∧
        (contains (env.getSchemaName (toUInt r.object_cmb.currentData)) FilterSeparator = false →
          contains r.item.text FilterSeparator = false →
          contains token FilterSeparator = false →
          split f FilterSeparator
            = [env.getSchemaName (toUInt r.object_cmb.currentData), r.item.text, token]) ∧
        (contains r.item.text FilterSeparator = true → 3 < (split f FilterSeparator).length)) ∧
    (∃ (w : ObjectsFilterWidget) (filters : List String) (r : Row) (f : String),
      (getFilterString env vb w).1 = some filters ∧ w.filters_tbw.rows[0]? = some r ∧
      contains r.item.text FilterSeparator = true ∧ filters[0]? = some f ∧
      3 < (split f FilterSeparator).length) := by
  have huniv : ∀ (w : ObjectsFilterWidget) (filters : List String) (i : Nat) (r : Row),
      (getFilterString env vb w).1 = some filters → w.filters_tbw.rows[i]? = some r →
      ∃ f token, filters[i]? = some f ∧ modeAt env r.mode_cmb.currentIndex = some token ∧
        (contains (env.getSchemaName (toUInt r.object_cmb.currentData)) FilterSeparator = false →
          contains r.item.text FilterSeparator = false →
          contains token FilterSeparator = false →
          split f FilterSeparator
            = [env.getSchemaName (toUInt r.object_cmb.currentData), r.item.text, token]) ∧
        (contains r.item.text FilterSeparator = true → 3 < (split f FilterSeparator).length) := by
    intro w filters i r hget hr
    obtain ⟨token, hm, hf⟩ := getFilterString_at env vb w filters i r hget hr
    exact ⟨_, token, hf, hm, fun ha hb hc => split_joined _ _ _ ha hb hc,
      fun hb => split_joined_length _ _ _ hb⟩
  refine ⟨huniv, ?_⟩
  have hloop : ∃ filters, (getFilterString env vb sampleWidgetColon).1 = some filters :=
    ⟨_, rfl⟩
  obtain ⟨filters, hget⟩ := hloop
  obtain ⟨f, _, hf, _, _, hlong⟩ := huniv sampleWidgetColon filters 0 (sampleRow "a:b" 0 10) hget rfl
  exact ⟨sampleWidgetColon, filters, sampleRow "a:b" 0 10, f, hget, rfl, by decide, hf,
    hlong (by decide)⟩

/-- C8 at the sample widget: the string of row 0 splits back into its three fields. -/
theorem C8_witness :
    ∃ f token, ["table:a:exact", "table:b%:like", "table:^c:regexp"][0]? = some f ∧
      modeAt sampleEnv (sampleRow "a" 0 10).mode_cmb.currentIndex = some token ∧
      (contains (sampleEnv.getSchemaName (toUInt (sampleRow "a" 0 10).object_cmb.currentData))
          FilterSeparator = false →
        contains (sampleRow "a" 0 10).item.text FilterSeparator = false →
        contains token FilterSeparator = false →
        split f FilterSeparator
          = [sampleEnv.getSchemaName (toUInt (sampleRow "a" 0 10).object_cmb.currentData),
             (sampleRow "a" 0 10).item.text, token]) ∧
      (contains (sampleRow "a" 0 10).item.text FilterSeparator = true →
        3 < (split f FilterSeparator).length) :=
  (C8_split_inverts_serialisation sampleEnv itemView).1 sampleWidget
    ["table:a:exact", "table:b%:like", "table:^c:regexp"] 0 (sampleRow "a" 0 10) rfl rfl

end ObjectsFilterWidget

end PgModeler
